import Mathlib

/-!
Shallow embedding of the CytoCV cell-image contour/feature-extraction
pipeline, translated from the Python sources:

* `core/contour_processing/contour_helper.py` (`get_contour_center`,
  `get_largest`)
* `core/contour_processing/contour_operations.py` (`find_contours`,
  `merge_contour`) in both the `cytocv` and `yeastweb` variants
* `core/cell_analysis/GFPDot.py` (`GFPDot.point_is_between`,
  `GFPDot.calculate_statistics`)
* `core/models.py` (`CellStatistics` classification fields)

Conventions of the embedding:

* A contour point is a pair of integers `(x, y)`; a contour is an ordered
  list of points.
* Floating-point Euclidean distances `math.dist p q` are represented by
  exact squared distances: all comparisons in the sources compare a
  distance (a monotone `sqrt` of an integer) against a non-negative bound,
  so `dist p q ≤ r ↔ sqdist p q ≤ r²` and likewise for `<`, `>`.
* OpenCV primitives (`cv2.moments`, `cv2.threshold`, `cv2.Canny`,
  `cv2.findContours`, `cv2.morphologyEx`) are third-party collaborators;
  they are abstracted as explicit function parameters where their output
  feeds the translated code.  `cv2.contourArea` is modelled concretely by
  the shoelace formula (its documented semantics) because the ranking
  logic of `get_largest` depends on comparing its results.
* Python code that would raise an exception is modelled with `Option`:
  `none` marks the raising executions.
-/

namespace CytoCV

/-- A contour point: integer pixel coordinates `(x, y)`. -/
abbrev Point : Type := ℤ × ℤ

/-- A contour: ordered list of integer points. -/
abbrev Contour : Type := List Point

/-- Squared Euclidean distance between two integer points; the exact model
of `math.dist p q ** 2`. -/
def sqdist (p q : Point) : ℤ :=
  (p.1 - q.1) ^ 2 + (p.2 - q.2) ^ 2

theorem sqdist_nonneg (p q : Point) : 0 ≤ sqdist p q := by
  have h1 : 0 ≤ (p.1 - q.1) ^ 2 := sq_nonneg _
  have h2 : 0 ≤ (p.2 - q.2) ^ 2 := sq_nonneg _
  unfold sqdist; omega

/-- Worker for `shoelaceDoubled`: accumulate the cross terms of
consecutive points, closing the polygon back to `first`. -/
def shoelaceAux (first : Point) : Point → List Point → ℤ
  | prev, [] => prev.1 * first.2 - first.1 * prev.2
  | prev, q :: qs => (prev.1 * q.2 - q.1 * prev.2) + shoelaceAux first q qs

/-- Twice the signed (shoelace) area of a closed polygon, accumulated over
consecutive point pairs with wrap-around. -/
def shoelaceDoubled : Contour → ℤ
  | [] => 0
  | p :: rest => shoelaceAux p p rest

/-- Model of `cv2.contourArea`: absolute value of the shoelace area. -/
def contourArea (c : Contour) : ℚ :=
  (|shoelaceDoubled c| : ℤ) / 2

/-- Truncation of a rational toward zero, the model of Python `int(...)`
applied to a float quotient: `Int.tdiv` of the reduced numerator by the
(positive) denominator truncates toward zero. -/
def ratTrunc (q : ℚ) : ℤ :=
  q.num.tdiv (q.den : ℤ)

/-- The three image moments of a contour that `get_contour_center` reads
from `cv2.moments`: `m00`, `m10`, `m01` (floats, modelled as rationals). -/
structure MomentVals where
  m00 : ℚ
  m10 : ℚ
  m01 : ℚ
  deriving DecidableEq

/-- Abstraction of the external `cv2.moments` call. -/
abbrev MomentsFn : Type := Contour → MomentVals

/-- Worker for `get_contour_center`: walks the contour list carrying the
running index `i` of the Python `for i in range(len(contour_list))` loop,
inserting `coordinates[i] = (int(m10/m00), int(m01/m00))` exactly when the
zeroth moment is nonzero. -/
def gccAux (M : MomentsFn) : List Contour → ℕ → List (ℕ × Point)
  | [], _ => []
  | c :: rest, i =>
    let m := M c
    if m.m00 ≠ 0 then
      (i, (ratTrunc (m.m10 / m.m00), ratTrunc (m.m01 / m.m00))) :: gccAux M rest (i + 1)
    else
      gccAux M rest (i + 1)

/-- Model of `get_contour_center` (`contour_helper.py`): returns the
insertion-ordered dictionary of contour centroids, skipping contours with
zero zeroth moment. -/
def get_contour_center (M : MomentsFn) (contour_list : List Contour) : List (ℕ × Point) :=
  gccAux M contour_list 0

/-- Key lookup in the association-list model of a Python dictionary
(`centers[0]`, `centers[1]`). -/
def lookupKey {β : Type} (k : ℕ) : List (ℕ × β) → Option β
  | [] => none
  | p :: rest => if k = p.1 then some p.2 else lookupKey k rest

/-- Candidate list built by the loop of `get_largest`: `(index, area)` for
every contour that is neither `None` nor empty, in original order. -/
def buildRanked : List (Option Contour) → ℕ → List (ℕ × ℚ)
  | [], _ => []
  | none :: rest, i => buildRanked rest (i + 1)
  | some c :: rest, i =>
    if c.length = 0 then buildRanked rest (i + 1)
    else (i, contourArea c) :: buildRanked rest (i + 1)

/-- One insertion step of a stable descending sort on `(index, area)`
pairs: the new element goes in front of the first element whose area is
not larger.  Together with `sortRankedDesc` this models the stable Python
`ranked.sort(key=lambda item: item[1], reverse=True)`. -/
def insertDesc (x : ℕ × ℚ) : List (ℕ × ℚ) → List (ℕ × ℚ)
  | [] => [x]
  | y :: ys => if y.2 ≤ x.2 then x :: y :: ys else y :: insertDesc x ys

/-- Stable descending-by-area sort (insertion sort). -/
def sortRankedDesc : List (ℕ × ℚ) → List (ℕ × ℚ)
  | [] => []
  | x :: xs => insertDesc x (sortRankedDesc xs)

/-- Model of `get_largest` (`contour_helper.py`): indices of up to the two
largest-area contours, sorted by descending area, ties kept in original
order. -/
def get_largest (contours : List (Option Contour)) : List ℕ :=
  ((sortRankedDesc (buildRanked contours 0)).take 2).map Prod.fst

/-- The two classification fields of `CellStatistics` (`core/models.py`)
that the GFPDot plugin writes.  `category_GFP_dot` defaults to
`CategoryGFPDot.NONE = 4`, `biorientation` defaults to `0`. -/
structure CellStats where
  category_GFP_dot : ℤ
  biorientation : ℤ
  deriving DecidableEq

/-- A freshly created `CellStatistics` record: the field defaults from
`core/models.py` (`default = CategoryGFPDot.NONE`, `default = 0`). -/
def defaultCellStats : CellStats :=
  { category_GFP_dot := 4, biorientation := 0 }

/-- The two contour lists of the `find_contours` result dictionary that
`GFPDot.calculate_statistics` reads. -/
structure ContoursData where
  dot_contours : List Contour
  contours_gfp : List Contour

/-- Model of `GFPDot.point_is_between` (`GFPDot.py`): the point is kept
when the cross product with the segment is within `eps` in absolute value
and the dot-product projection lies inside the segment bounds.  The
squared segment length (`math.dist(e1,e2) ** 2` in the source) is computed
exactly as `sqdist`. -/
def point_is_between (point endpoint1 endpoint2 : Point) (eps : ℤ) : Bool :=
  let cross := (point.2 - endpoint1.2) * (endpoint2.1 - endpoint1.1)
    - (point.1 - endpoint1.1) * (endpoint2.2 - endpoint1.2)
  if |cross| > eps then false
  else
    let dot := (point.1 - endpoint1.1) * (endpoint2.1 - endpoint1.1)
      + (point.2 - endpoint1.2) * (endpoint2.2 - endpoint1.2)
    let squared_dist := sqdist endpoint1 endpoint2
    ¬(dot < 0 ∨ dot > squared_dist)

/-- The inner loop of branch A of `calculate_statistics`: how many green
centers lie within `prox_radius = 13` pixels of the given red center
(`math.dist ≤ 13` is exactly `sqdist ≤ 13 ^ 2`). -/
def countNearGreens (greens : List Point) (center : Point) : ℕ :=
  greens.foldl (fun n gc => if sqdist center gc ≤ 13 ^ 2 then n + 1 else n) 0

/-- The loop of branch B of `calculate_statistics`: how many green centers
pass `point_is_between` with `eps = 50`. -/
def countBetweenGreens (greens : List Point) (c0 c1 : Point) : ℕ :=
  greens.foldl (fun n gc => if point_is_between gc c0 c1 50 then n + 1 else n) 0

/-- Model of `GFPDot.calculate_statistics` (`GFPDot.py`).  The record `cp`
is passed and returned explicitly (the source mutates `self.cp`).  The
`try`/`except` of the source is modelled by the `match` on the two center
lookups: a missing key (`KeyError` from `centers[0]` / `centers[1]`, the
zero-moment case) lands in the fallback arm that writes category 4 and
biorientation 0.  The visualization side effect (`cv2.circle`) is dropped.
Distances are compared in squared form; the branch guard
`distance > gfp_distance` uses the normalized non-negative `gfp_distance`,
so it is exactly `sqdist > gfp_distance ^ 2`. -/
def calculate_statistics (M : MomentsFn) (contours_data : ContoursData)
    (gfp_distance : ℚ) (cp : CellStats) : CellStats :=
  -- Use default gfp_distance value if a negative value was provided
  let gfpD := if 0 ≤ gfp_distance then gfp_distance else 37
  let dot_contours := contours_data.dot_contours
  -- Check whether we have two red signals
  if 1 < dot_contours.length then
    let contour1 := dot_contours.getD 0 []
    let contour2 := dot_contours.getD 1 []
    let centers := get_contour_center M [contour1, contour2]
    match lookupKey 0 centers, lookupKey 1 centers with
    | some c0, some c1 =>
      let green_centers := (get_contour_center M contours_data.contours_gfp).map Prod.snd
      if (sqdist c0 c1 : ℚ) > gfpD ^ 2 then
        let n0 := countNearGreens green_centers c0
        let n1 := countNearGreens green_centers c1
        if 1 ≤ n0 ∧ 1 ≤ n1 then { cp with category_GFP_dot := 1 }
        else if (n0 = 1 ∧ n1 = 0) ∨ (n0 = 0 ∧ n1 = 1) then { cp with category_GFP_dot := 2 }
        else if (n0 = 2 ∧ n1 = 0) ∨ (n0 = 0 ∧ n1 = 2) then { cp with category_GFP_dot := 3 }
        else { cp with category_GFP_dot := 4 }
      else
        let num_between := countBetweenGreens green_centers c0 c1
        if num_between = 1 then { cp with biorientation := 1 }
        else if 1 < num_between then { cp with biorientation := 2 }
        else { cp with biorientation := 0 }
    | _, _ =>
      -- except Exception: category 4, biorientation 0, return
      { cp with category_GFP_dot := 4, biorientation := 0 }
  else
    -- no `else` branch in the source: the record is left untouched
    cp

/-- Squared form of the sentinel `smallest_distance = 999999999` of
`merge_contour`: `math.sqrt s < 999999999 ↔ s < 999999999 ^ 2`. -/
def mergeSentinelSq : ℤ := 999999999 ^ 2

/-- One step of the nested closest-pair loops of `merge_contour`: update
the running `(smallest_squared_distance, smallest_pair)` state.  The dead
`second_smallest_*` variables of the source are never read after the loop
and are omitted. -/
def fcpStep (st : ℤ × Option (Point × Point × ℕ)) (pr : Point × Point × ℕ) :
    ℤ × Option (Point × Point × ℕ) :=
  if sqdist pr.1 pr.2.1 < st.1 then (sqdist pr.1 pr.2.1, some pr) else st

/-- The candidate pairs `(pt1, pt2, i)` scanned by the nested loops
`for pt1 in c1: for i, pt2 in enumerate(c2)`. -/
def fcpPairs (c1 c2 : Contour) : List (Point × Point × ℕ) :=
  c1.flatMap (fun a => (c2.enum).map (fun ib => (a, ib.2, ib.1)))

/-- The closest-pair search of `merge_contour`: returns
`some (p1, p2, i)` when some pair beats the sentinel, `none` otherwise
(in the `none` case the Python source goes on to evaluate
`smallest_pair[0][0]` with `smallest_pair = (-1, -1)` and raises). -/
def findClosestPair (c1 c2 : Contour) : Option (Point × Point × ℕ) :=
  ((fcpPairs c1 c2).foldl fcpStep (mergeSentinelSq, none)).2

/-- The merge walk of `merge_contour`: emit the points of `c1` in order and
after every point equal to the splice point `p1` emit the ring `ringB`
(the source's `while` loop over `c2` starting at the splice index). -/
def mergeWalk (c1 : Contour) (p1 : Point) (ringB : Contour) : Contour :=
  c1.flatMap (fun pt => if pt = p1 then pt :: ringB else [pt])

/-- Model of `merge_contour` (`contour_operations.py`).  For a 2-element
shortlist: find the closest pair of points and splice the full ring of the
second contour (starting at the splice index, `c2.drop i ++ c2.take i`,
which is what the source `while` loop emits) after every occurrence of the
splice point in the first contour.  `none` models both "no contour"
(shortlist length 0 or > 2) and the raising execution when no pair beats
the sentinel. -/
def merge_contour (bestContours : List ℕ) (contours : List Contour) : Option Contour :=
  if bestContours.length = 2 then
    let c1 := contours.getD (bestContours.getD 0 0) []
    let c2 := contours.getD (bestContours.getD 1 0) []
    match findClosestPair c1 c2 with
    | some (p1, _, i) => some (mergeWalk c1 p1 (c2.drop i ++ c2.take i))
    | none => none
  else if bestContours.length = 1 then
    some (contours.getD (bestContours.getD 0 0) [])
  else
    none

/-- The OpenCV primitives invoked by `find_contours`, abstracted over the
image and mask representations.  Each field corresponds to one fixed call
shape in the sources. -/
structure CVPrims (Image Mask : Type) where
  /-- `cv2.threshold(img, 0.65, 1, THRESH_BINARY_INV + THRESH_OTSU)` -/
  thresholdOtsuInv : Image → Mask
  /-- `cv2.threshold(img, 0, 1, ADAPTIVE_THRESH_GAUSSIAN_C | THRESH_OTSU)` -/
  thresholdAdaptOtsu : Image → Mask
  /-- `cv2.threshold` pair of `_legacy_otsu_threshold_with_bias`: returns
  the binary mask together with the raw and bias-adjusted Otsu levels. -/
  thresholdOtsuBias : Image → ℚ → Mask × ℚ × ℚ
  /-- `cv2.Canny(img, low, high)` -/
  canny : Image → ℕ → ℕ → Mask
  /-- `cv2.morphologyEx(mask, MORPH_CLOSE, np.ones((3,3)))` -/
  morphCloseOnes : Mask → Mask
  /-- `cv2.morphologyEx(mask, MORPH_CLOSE, getStructuringElement(MORPH_CROSS, (3,3)))` -/
  morphCloseCross : Mask → Mask
  /-- `cv2.findContours(mask, RETR_LIST, 2)` (mode `1` is `RETR_LIST`) -/
  findContoursL : Mask → List Contour
  /-- `cv2.findContours(mask, RETR_EXTERNAL, 2)` -/
  findContoursExt : Mask → List Contour
  /-- `np.max(mask)` -/
  maskMax : Mask → ℕ

/-- The contour-bundle dictionary returned by the `cytocv` variant of
`find_contours`. -/
structure FCBundle where
  bestContours : List ℕ
  bestContours_mcherry : List ℕ
  contours : List Contour
  contours_mcherry : List Contour
  contours_dapi : List Contour
  contours_dapi_3 : List Contour
  bestContours_dapi : List ℕ
  bestContours_dapi_3 : List ℕ
  dot_contours : List Contour
  contours_gfp : List Contour

/-- Model of the `cytocv` variant of `find_contours`
(`cytocv/core/contour_processing/contour_operations.py`).  A `GrayImage`
is its `get_image` view: a map from derivative name to optional image.
Every detection block is guarded by the `is not None` checks of the
source, so absent channels contribute empty lists and no primitive is
invoked for them. -/
def find_contours (P : CVPrims Image Mask) (images : String → Option Image) : FCBundle :=
  let gray_mcherry_3 := images "gray_mcherry_3"
  let gray_mcherry := images "gray_mcherry"
  let gray_dapi_3 := images "gray_dapi_3"
  let gray_dapi := images "gray_dapi"
  let gray_gfp := images "GFP"

  let dot_contours : List Contour :=
    match gray_mcherry_3 with
    | some img =>
      (P.findContoursL (P.thresholdOtsuInv img)).filter (fun cnt => contourArea cnt < 100)
    | none => []

  let mch : List Contour × List Contour × List ℕ × List ℕ :=
    match gray_mcherry_3, gray_mcherry with
    | some img3, some img =>
      let thresh_mcherry := P.canny img3 50 150
      let thresh := P.canny img 50 150
      -- Try again with less restrictive thresholding if nothing was found
      let tt : Mask × Mask :=
        if P.maskMax thresh = 0 then
          (P.thresholdAdaptOtsu img, P.thresholdAdaptOtsu img3)
        else (thresh, thresh_mcherry)
      let contours := P.findContoursL tt.1
      let contours_mcherry := P.findContoursL tt.2
      (contours, contours_mcherry, get_largest (contours.map some),
        get_largest (contours_mcherry.map some))
    | _, _ => ([], [], [], [])

  let dapi : List Contour × List Contour × List ℕ × List ℕ :=
    match gray_dapi_3, gray_dapi with
    | some img3, some img =>
      let thresh_dapi_3 := P.morphCloseOnes (P.canny img3 60 70)
      let thresh_dapi := P.morphCloseOnes (P.canny img 60 70)
      let contours_dapi := P.findContoursExt thresh_dapi
      let contours_dapi_3 :=
        (P.findContoursExt thresh_dapi_3).filter
          (fun cnt => 100 < contourArea cnt ∧ contourArea cnt < 1000)
      (contours_dapi, contours_dapi_3, get_largest (contours_dapi.map some),
        if contours_dapi_3 = [] then [] else get_largest (contours_dapi_3.map some))
    | _, _ => ([], [], [], [])

  let contours_gfp : List Contour :=
    match gray_gfp with
    | some img => P.findContoursL (P.morphCloseCross (P.canny img 50 150))
    | none => []

  { bestContours := mch.2.2.1
    bestContours_mcherry := mch.2.2.2
    contours := mch.1
    contours_mcherry := mch.2.1
    contours_dapi := dapi.1
    contours_dapi_3 := dapi.2.1
    bestContours_dapi := dapi.2.2.1
    bestContours_dapi_3 := dapi.2.2.2
    dot_contours := dot_contours
    contours_gfp := contours_gfp }

/-- Model of Python `str.lower()`: lowercase every character. -/
def strLower (s : String) : String := ⟨s.data.map Char.toLower⟩

/-- Model of Python `str.strip()`: drop whitespace from both ends. -/
def strTrim (s : String) : String :=
  ⟨((s.data.dropWhile Char.isWhitespace).reverse.dropWhile Char.isWhitespace).reverse⟩

/-- Model of `normalize_mcherry_dot_method`
(`yeastweb/core/contour_processing/contour_operations.py`): a falsy value
normalizes to `"current"`, otherwise `str(method).strip().lower()` is kept
when it is a known method and replaced by `"current"` otherwise. -/
def normalize_mcherry_dot_method (method : String) : String :=
  if method = "" then "current"
  else
    let normalized := strLower (strTrim method)
    if normalized = "current" ∨ normalized = "legacy" then normalized else "current"

/-- Model of `_extract_dot_contours`: list-style contour retrieval with
the `< 100` area filter. -/
def extract_dot_contours (P : CVPrims Image Mask) (mask : Mask) : List Contour :=
  (P.findContoursL mask).filter (fun cnt => contourArea cnt < 100)

/-- The contour-bundle dictionary returned by the `yeastweb` variant of
`find_contours`, including its provenance metadata entries. -/
structure FCBundleYW extends FCBundle where
  mcherry_dot_method : String
  legacy_gfp_otsu_bias : ℚ
  legacy_gfp_otsu_threshold : Option ℚ
  legacy_gfp_adjusted_threshold : Option ℚ

/-- Model of the `yeastweb` variant of `find_contours`
(`yeastweb/core/contour_processing/contour_operations.py`).  This variant
reads all five channel derivatives unconditionally — passing a missing
(`None`) image into `cv2` raises — so the model returns `none` unless
every derivative is present. -/
def find_contours_yw (P : CVPrims Image Mask) (images : String → Option Image)
    (mcherry_dot_method : String) (legacy_gfp_otsu_bias : ℚ) : Option FCBundleYW :=
  match images "gray_mcherry_3", images "gray_mcherry", images "gray_dapi_3",
      images "gray_dapi", images "GFP" with
  | some gm3, some gm, some gd3, some gd, some gfp =>
    let method := normalize_mcherry_dot_method mcherry_dot_method
    let isLegacy := method = "legacy"
    -- `float(legacy_gfp_otsu_bias or 0.0)` is the identity on a float bias
    let bias := legacy_gfp_otsu_bias
    -- masks per branch: (dot_contours, thresh, thresh_mcherry, thresh_dapi_3,
    -- thresh_dapi, thresh_gfp, legacy otsu metadata)
    let st : List Contour × Mask × Mask × Mask × Mask × Mask × Option ℚ × Option ℚ :=
      if isLegacy then
        let thresh_mcherry := P.thresholdAdaptOtsu gm3
        let thresh := P.thresholdAdaptOtsu gm
        let dots := extract_dot_contours P thresh_mcherry
        let tg := P.thresholdOtsuBias gfp bias
        (dots, thresh, thresh_mcherry, P.thresholdAdaptOtsu gd3, P.thresholdAdaptOtsu gd,
          tg.1, some tg.2.1, some tg.2.2)
      else
        let dots := extract_dot_contours P (P.thresholdOtsuInv gm3)
        let thresh_mcherry := P.canny gm3 50 150
        let thresh := P.canny gm 50 150
        -- Fallback to Otsu when Canny finds no edges.
        let tt : Mask × Mask :=
          if P.maskMax thresh = 0 then
            (P.thresholdAdaptOtsu gm, P.thresholdAdaptOtsu gm3)
          else (thresh, thresh_mcherry)
        let thresh_dapi_3 := P.morphCloseOnes (P.canny gd3 60 70)
        let thresh_dapi := P.morphCloseOnes (P.canny gd 60 70)
        let thresh_gfp := P.morphCloseCross (P.canny gfp 50 150)
        (dots, tt.1, tt.2, thresh_dapi_3, thresh_dapi, thresh_gfp, none, none)
    let contours := P.findContoursL st.2.1
    let contours_mcherry := P.findContoursL st.2.2.1
    let dapiGfp : List Contour × List Contour × List Contour :=
      if isLegacy then
        -- Legacy behavior used list-style contour retrieval.
        (P.findContoursL st.2.2.2.2.1, P.findContoursL st.2.2.2.1,
          P.findContoursL st.2.2.2.2.2.1)
      else
        (P.findContoursExt st.2.2.2.2.1,
          (P.findContoursExt st.2.2.2.1).filter
            (fun cnt => 100 < contourArea cnt ∧ contourArea cnt < 1000),
          P.findContoursL st.2.2.2.2.2.1)
    let contours_dapi := dapiGfp.1
    let contours_dapi_3 := dapiGfp.2.1
    let contours_gfp := dapiGfp.2.2
    let bestContours := get_largest (contours.map some)
    let bestContours_mcherry := get_largest (contours_mcherry.map some)
    let bestContours_dapi := get_largest (contours_dapi.map some)
    let bestContours_dapi_3 :=
      if contours_dapi_3 = [] then [] else get_largest (contours_dapi_3.map some)
    -- Match the original code path: use the largest two mCherry contours
    -- for dot metrics.
    let dot_contours :=
      if isLegacy ∧ bestContours_mcherry ≠ [] then
        (bestContours_mcherry.filter (fun i => i < contours_mcherry.length)).map
          (fun i => contours_mcherry.getD i [])
      else st.1
    some
      { bestContours := bestContours
        bestContours_mcherry := bestContours_mcherry
        contours := contours
        contours_mcherry := contours_mcherry
        contours_dapi := contours_dapi
        contours_dapi_3 := contours_dapi_3
        bestContours_dapi := bestContours_dapi
        bestContours_dapi_3 := bestContours_dapi_3
        dot_contours := dot_contours
        contours_gfp := contours_gfp
        mcherry_dot_method := method
        legacy_gfp_otsu_bias := bias
        legacy_gfp_otsu_threshold := st.2.2.2.2.2.2.1
        legacy_gfp_adjusted_threshold := st.2.2.2.2.2.2.2 }
  | _, _, _, _, _ => none

/-! ## Helper lemmas -/

theorem gccAux_lookup (M : MomentsFn) (cl : List Contour) (i0 k : ℕ) :
    lookupKey k (gccAux M cl i0) =
      if i0 ≤ k then
        (cl.get? (k - i0)).bind (fun c =>
          if (M c).m00 ≠ 0 then
            some (ratTrunc ((M c).m10 / (M c).m00), ratTrunc ((M c).m01 / (M c).m00))
          else none)
      else none := by
  induction cl generalizing i0 with
  | nil =>
    simp only [gccAux, lookupKey, List.get?_nil, Option.none_bind]
    split <;> rfl
  | cons c rest ih =>
    simp only [gccAux]
    by_cases hm : (M c).m00 = 0
    · rw [if_neg (by simpa using hm), ih]
      by_cases hk : k = i0
      · subst hk
        rw [if_neg (by omega), if_pos (le_refl _)]
        simp [hm]
      · by_cases hik : i0 ≤ k
        · have h1 : i0 + 1 ≤ k := by omega
          rw [if_pos h1, if_pos hik]
          have h2 : k - i0 = (k - (i0 + 1)) + 1 := by omega
          rw [h2, List.get?_cons_succ]
        · rw [if_neg (by omega), if_neg hik]
    · rw [if_pos (by simpa using hm)]
      by_cases hk : k = i0
      · subst hk
        rw [lookupKey, if_pos rfl, if_pos (le_refl _)]
        simp [hm]
      · rw [lookupKey, if_neg hk, ih]
        by_cases hik : i0 ≤ k
        · have h1 : i0 + 1 ≤ k := by omega
          rw [if_pos h1, if_pos hik]
          have h2 : k - i0 = (k - (i0 + 1)) + 1 := by omega
          rw [h2, List.get?_cons_succ]
        · rw [if_neg (by omega), if_neg hik]

theorem lookupKey_isSome_iff {β : Type} (l : List (ℕ × β)) (k : ℕ) :
    (lookupKey k l).isSome ↔ k ∈ l.map Prod.fst := by
  induction l with
  | nil => simp [lookupKey]
  | cons p t ih =>
    by_cases h : k = p.1
    · subst h; simp [lookupKey]
    · rw [lookupKey, if_neg h]
      simp [ih, h]

theorem count_foldl_eq_countP {α : Type} (p : α → Prop) [DecidablePred p]
    (l : List α) (n : ℕ) :
    l.foldl (fun m x => if p x then m + 1 else m) n
      = n + l.countP (fun x => decide (p x)) := by
  induction l generalizing n with
  | nil => simp
  | cons a t ih =>
    by_cases h : p a <;> simp [List.countP_cons, h, ih] <;> omega

theorem count_foldl_eq_countP_bool {α : Type} (p : α → Bool) (l : List α) (n : ℕ) :
    l.foldl (fun m x => if p x then m + 1 else m) n = n + l.countP p := by
  induction l generalizing n with
  | nil => simp
  | cons a t ih =>
    cases h : p a <;> simp [List.countP_cons, h, ih] <;> omega

theorem countNearGreens_eq_countP (greens : List Point) (c : Point) :
    countNearGreens greens c
      = greens.countP (fun gc => decide (sqdist c gc ≤ 13 ^ 2)) := by
  simpa using count_foldl_eq_countP (fun gc => sqdist c gc ≤ 13 ^ 2) greens 0

theorem countBetweenGreens_eq_countP (greens : List Point) (c0 c1 : Point) :
    countBetweenGreens greens c0 c1
      = greens.countP (fun gc => point_is_between gc c0 c1 50) := by
  simpa using count_foldl_eq_countP_bool (fun gc => point_is_between gc c0 c1 50) greens 0

/-- Moments interpretation used by concrete examples: a one-point contour
carries unit mass at its point, anything else has zero mass. -/
def unitMoments : MomentsFn := fun c =>
  match c with
  | [(x, y)] => ⟨1, (x : ℚ), (y : ℚ)⟩
  | _ => ⟨0, 0, 0⟩

/-! ## Claim theorems -/

/-- C10: for every list of contours, `get_contour_center` returns a
dictionary whose keys are exactly the indices of the contours with a
nonzero zeroth image moment, each mapped to the integer-truncated centroid
`(int(m10/m00), int(m01/m00))`; contours with zero zeroth moment produce
no entry (the function is total, so it raises nothing). -/
theorem get_contour_center_char (M : MomentsFn) (cl : List Contour) :
    (∀ k : ℕ, lookupKey k (get_contour_center M cl)
        = (cl.get? k).bind (fun c =>
            if (M c).m00 ≠ 0 then
              some (ratTrunc ((M c).m10 / (M c).m00), ratTrunc ((M c).m01 / (M c).m00))
            else none))
    ∧ (∀ k : ℕ, k ∈ (get_contour_center M cl).map Prod.fst ↔
        ∃ c, cl.get? k = some c ∧ (M c).m00 ≠ 0) := by
  constructor
  · intro k
    have h := gccAux_lookup M cl 0 k
    rw [get_contour_center, h, if_pos (Nat.zero_le k), Nat.sub_zero]
  · intro k
    rw [← lookupKey_isSome_iff, get_contour_center, gccAux_lookup M cl 0 k,
      if_pos (Nat.zero_le k), Nat.sub_zero]
    cases hc : cl.get? k with
    | none => simp
    | some c =>
      by_cases hm : (M c).m00 = 0
      · simp [hm]
      · simp [hm]

/-- C8: when one of the first two red-dot contours has a zero zeroth
moment, its center is missing from the `get_contour_center` dictionary,
the `centers[0]`/`centers[1]` lookup fails (`KeyError`), and the
`except` handler of `calculate_statistics` catches it: the call returns
normally with `category_GFP_dot = 4` and `biorientation = 0`. -/
theorem calculate_statistics_zero_moment_caught (M : MomentsFn) (data : ContoursData)
    (g : ℚ) (cp : CellStats)
    (h2 : 2 ≤ data.dot_contours.length)
    (hm : (M (data.dot_contours.getD 0 [])).m00 = 0
        ∨ (M (data.dot_contours.getD 1 [])).m00 = 0) :
    calculate_statistics M data g cp
      = { cp with category_GFP_dot := 4, biorientation := 0 } := by
  have h2' : 1 < data.dot_contours.length := by omega
  have l0 := gccAux_lookup M
    [data.dot_contours.getD 0 [], data.dot_contours.getD 1 []] 0 0
  have l1 := gccAux_lookup M
    [data.dot_contours.getD 0 [], data.dot_contours.getD 1 []] 0 1
  simp only [Nat.zero_le, if_pos, Nat.sub_zero, List.get?] at l0 l1
  rcases hm with hm | hm
  · have l0' : lookupKey 0 (get_contour_center M
        [data.dot_contours.getD 0 [], data.dot_contours.getD 1 []]) = none := by
      rw [get_contour_center, l0, Option.some_bind, if_neg (not_not_intro hm)]
    simp only [calculate_statistics, if_pos h2', l0']
  · by_cases hm0 : (M (data.dot_contours.getD 0 [])).m00 = 0
    · have l0' : lookupKey 0 (get_contour_center M
          [data.dot_contours.getD 0 [], data.dot_contours.getD 1 []]) = none := by
        rw [get_contour_center, l0, Option.some_bind, if_neg (not_not_intro hm0)]
      simp only [calculate_statistics, if_pos h2', l0']
    · have l1' : lookupKey 1 (get_contour_center M
          [data.dot_contours.getD 0 [], data.dot_contours.getD 1 []]) = none := by
        rw [get_contour_center, l1, Option.some_bind, if_neg (not_not_intro hm)]
      simp only [calculate_statistics, if_pos h2', l1']
      cases lookupKey 0 (get_contour_center M
        [data.dot_contours.getD 0 [], data.dot_contours.getD 1 []]) <;> rfl

/-- Witness for C8 at a concrete input: two one-point red contours under
the all-zero moments function. -/
theorem calculate_statistics_zero_moment_caught_witness :
    2 ≤ ([[((0 : ℤ), (0 : ℤ))], [((1 : ℤ), (1 : ℤ))]] : List Contour).length
    ∧ calculate_statistics (fun _ => ⟨0, 0, 0⟩)
        ⟨[[((0 : ℤ), (0 : ℤ))], [((1 : ℤ), (1 : ℤ))]], []⟩ 37 ⟨7, 5⟩
      = { category_GFP_dot := 4, biorientation := 0 } :=
  ⟨by decide,
    calculate_statistics_zero_moment_caught (fun _ => ⟨0, 0, 0⟩)
      ⟨[[((0 : ℤ), (0 : ℤ))], [((1 : ℤ), (1 : ℤ))]], []⟩ 37 ⟨7, 5⟩
      (by decide) (Or.inl (by decide))⟩

/-- Counterexample for C7: with fewer than two red-dot contours the
plugin does NOT set `category_GFP_dot = 4` / `biorientation = 0`; it
leaves the record untouched (here a record holding category 1,
biorientation 2 stays at those values). -/
theorem gfpdot_precondition_cex :
    calculate_statistics (fun _ => ⟨0, 0, 0⟩) ⟨[], []⟩ 37 ⟨1, 2⟩ = ⟨1, 2⟩
    ∧ (⟨1, 2⟩ : CellStats) ≠ defaultCellStats := by
  constructor
  · rfl
  · decide

/-- C7 (amended): with fewer than two red-dot contours,
`calculate_statistics` performs no classification work and returns the
record unchanged; the 4/0 outcome on a fresh record comes from the model
field defaults, not from the plugin. -/
theorem gfpdot_precondition_unchanged (M : MomentsFn) (data : ContoursData)
    (g : ℚ) (cp : CellStats) (h : data.dot_contours.length < 2) :
    calculate_statistics M data g cp = cp
    ∧ defaultCellStats.category_GFP_dot = 4 ∧ defaultCellStats.biorientation = 0 := by
  refine ⟨?_, rfl, rfl⟩
  simp only [calculate_statistics, if_neg (by omega : ¬ 1 < data.dot_contours.length)]

/-- Witness for C7's amended theorem at a concrete input. -/
theorem gfpdot_precondition_unchanged_witness :
    (⟨[], []⟩ : ContoursData).dot_contours.length < 2
    ∧ calculate_statistics (fun _ => ⟨0, 0, 0⟩) ⟨[], []⟩ 37 ⟨1, 2⟩ = ⟨1, 2⟩
    ∧ defaultCellStats.category_GFP_dot = 4 ∧ defaultCellStats.biorientation = 0 :=
  ⟨by decide,
    gfpdot_precondition_unchanged (fun _ => ⟨0, 0, 0⟩) ⟨[], []⟩ 37 ⟨1, 2⟩ (by decide)⟩

/-- C1: in the separated branch (center distance strictly above the
normalized `gfp_distance`), with `n0`/`n1` the number of green-contour
centers within 13 pixels of red center 0 and red center 1, the plugin sets
`category_GFP_dot` to 1 when `n0 ≥ 1 ∧ n1 ≥ 1`, to 2 when exactly one of
them is 1 and the other 0, to 3 when exactly one is 2 and the other 0, and
to 4 otherwise. -/
theorem gfpdot_separated_category (M : MomentsFn) (data : ContoursData)
    (g : ℚ) (cp : CellStats) (c0 c1 : Point)
    (h2 : 2 ≤ data.dot_contours.length)
    (h0 : lookupKey 0 (get_contour_center M
        [data.dot_contours.getD 0 [], data.dot_contours.getD 1 []]) = some c0)
    (h1 : lookupKey 1 (get_contour_center M
        [data.dot_contours.getD 0 [], data.dot_contours.getD 1 []]) = some c1)
    (hd : (sqdist c0 c1 : ℚ) > (if 0 ≤ g then g else 37) ^ 2) :
    (calculate_statistics M data g cp).category_GFP_dot =
      if 1 ≤ (List.map Prod.snd (get_contour_center M data.contours_gfp)).countP
            (fun gc => decide (sqdist c0 gc ≤ 13 ^ 2))
          ∧ 1 ≤ (List.map Prod.snd (get_contour_center M data.contours_gfp)).countP
            (fun gc => decide (sqdist c1 gc ≤ 13 ^ 2)) then 1
      else if ((List.map Prod.snd (get_contour_center M data.contours_gfp)).countP
              (fun gc => decide (sqdist c0 gc ≤ 13 ^ 2)) = 1
            ∧ (List.map Prod.snd (get_contour_center M data.contours_gfp)).countP
              (fun gc => decide (sqdist c1 gc ≤ 13 ^ 2)) = 0)
          ∨ ((List.map Prod.snd (get_contour_center M data.contours_gfp)).countP
              (fun gc => decide (sqdist c0 gc ≤ 13 ^ 2)) = 0
            ∧ (List.map Prod.snd (get_contour_center M data.contours_gfp)).countP
              (fun gc => decide (sqdist c1 gc ≤ 13 ^ 2)) = 1) then 2
      else if ((List.map Prod.snd (get_contour_center M data.contours_gfp)).countP
              (fun gc => decide (sqdist c0 gc ≤ 13 ^ 2)) = 2
            ∧ (List.map Prod.snd (get_contour_center M data.contours_gfp)).countP
              (fun gc => decide (sqdist c1 gc ≤ 13 ^ 2)) = 0)
          ∨ ((List.map Prod.snd (get_contour_center M data.contours_gfp)).countP
              (fun gc => decide (sqdist c0 gc ≤ 13 ^ 2)) = 0
            ∧ (List.map Prod.snd (get_contour_center M data.contours_gfp)).countP
              (fun gc => decide (sqdist c1 gc ≤ 13 ^ 2)) = 2) then 3
      else 4 := by
  have h2' : 1 < data.dot_contours.length := by omega
  simp only [calculate_statistics, if_pos h2', h0, h1, if_pos hd,
    countNearGreens_eq_countP]
  split_ifs <;> rfl

/-- Witness for C1 at a concrete input: red centers `(0,0)` and `(50,0)`
(distance 50 > 37), green centers `(1,0)` and `(49,0)`, one near each red
center, giving category 1. -/
theorem gfpdot_separated_category_witness :
    (calculate_statistics unitMoments
        ⟨[[((0 : ℤ), (0 : ℤ))], [((50 : ℤ), (0 : ℤ))]],
          [[((1 : ℤ), (0 : ℤ))], [((49 : ℤ), (0 : ℤ))]]⟩ 37 ⟨9, 9⟩).category_GFP_dot
      = 1 := by
  have h := gfpdot_separated_category unitMoments
    ⟨[[((0 : ℤ), (0 : ℤ))], [((50 : ℤ), (0 : ℤ))]],
      [[((1 : ℤ), (0 : ℤ))], [((49 : ℤ), (0 : ℤ))]]⟩ 37 ⟨9, 9⟩
    ((0 : ℤ), (0 : ℤ)) ((50 : ℤ), (0 : ℤ))
    (by decide)
    (by norm_num [get_contour_center, gccAux, unitMoments, lookupKey, ratTrunc])
    (by norm_num [get_contour_center, gccAux, unitMoments, lookupKey, ratTrunc])
    (by norm_num [sqdist])
  rw [h]
  norm_num [get_contour_center, gccAux, unitMoments, ratTrunc, sqdist,
    List.countP_cons, List.countP_nil]

/-- C2: in the close-together branch (center distance at most the
normalized `gfp_distance`), the plugin counts the green centers passing
the collinear-and-between test (`point_is_between` with epsilon 50) and
sets `biorientation` to 0, 1 or 2 for counts 0, exactly 1, and 2-or-more;
`category_GFP_dot` is not written in this branch. -/
theorem gfpdot_close_biorientation (M : MomentsFn) (data : ContoursData)
    (g : ℚ) (cp : CellStats) (c0 c1 : Point)
    (h2 : 2 ≤ data.dot_contours.length)
    (h0 : lookupKey 0 (get_contour_center M
        [data.dot_contours.getD 0 [], data.dot_contours.getD 1 []]) = some c0)
    (h1 : lookupKey 1 (get_contour_center M
        [data.dot_contours.getD 0 [], data.dot_contours.getD 1 []]) = some c1)
    (hd : (sqdist c0 c1 : ℚ) ≤ (if 0 ≤ g then g else 37) ^ 2) :
    (calculate_statistics M data g cp).biorientation =
      (if (List.map Prod.snd (get_contour_center M data.contours_gfp)).countP
            (fun gc => point_is_between gc c0 c1 50) = 1 then 1
        else if 1 < (List.map Prod.snd (get_contour_center M data.contours_gfp)).countP
            (fun gc => point_is_between gc c0 c1 50) then 2
        else 0)
    ∧ (calculate_statistics M data g cp).category_GFP_dot = cp.category_GFP_dot := by
  have h2' : 1 < data.dot_contours.length := by omega
  have hd' : ¬ ((sqdist c0 c1 : ℚ) > (if 0 ≤ g then g else 37) ^ 2) := not_lt.mpr hd
  constructor
  · simp only [calculate_statistics, if_pos h2', h0, h1, if_neg hd',
      countBetweenGreens_eq_countP]
    split_ifs <;> rfl
  · simp only [calculate_statistics, if_pos h2', h0, h1, if_neg hd',
      countBetweenGreens_eq_countP]
    split_ifs <;> rfl

/-- Witness for C2 at a concrete input: red centers `(0,0)` and `(20,0)`
(distance 20 ≤ 37), one green center `(10,0)` exactly collinear and
between them, giving biorientation 1 and an untouched category field. -/
theorem gfpdot_close_biorientation_witness :
    (calculate_statistics unitMoments
        ⟨[[((0 : ℤ), (0 : ℤ))], [((20 : ℤ), (0 : ℤ))]],
          [[((10 : ℤ), (0 : ℤ))]]⟩ 37 ⟨9, 9⟩).biorientation = 1
    ∧ (calculate_statistics unitMoments
        ⟨[[((0 : ℤ), (0 : ℤ))], [((20 : ℤ), (0 : ℤ))]],
          [[((10 : ℤ), (0 : ℤ))]]⟩ 37 ⟨9, 9⟩).category_GFP_dot = 9 := by
  have h := gfpdot_close_biorientation unitMoments
    ⟨[[((0 : ℤ), (0 : ℤ))], [((20 : ℤ), (0 : ℤ))]],
      [[((10 : ℤ), (0 : ℤ))]]⟩ 37 ⟨9, 9⟩
    ((0 : ℤ), (0 : ℤ)) ((20 : ℤ), (0 : ℤ))
    (by decide)
    (by norm_num [get_contour_center, gccAux, unitMoments, lookupKey, ratTrunc])
    (by norm_num [get_contour_center, gccAux, unitMoments, lookupKey, ratTrunc])
    (by norm_num [sqdist])
  refine ⟨?_, h.2⟩
  rw [h.1]
  norm_num [get_contour_center, gccAux, unitMoments, ratTrunc, point_is_between, sqdist,
    List.countP_cons, List.countP_nil]

/-! ## `get_largest` ranking lemmas -/

/-- The ordering a stable descending-by-area sort of an index-increasing
candidate list establishes: strictly larger area first, ties in index
order. -/
def rankOrder (a b : ℕ × ℚ) : Prop :=
  b.2 < a.2 ∨ (a.2 = b.2 ∧ a.1 < b.1)

theorem mem_buildRanked (contours : List (Option Contour)) (i0 : ℕ) :
    ∀ p ∈ buildRanked contours i0, ∃ k c, p.1 = i0 + k
      ∧ contours.get? k = some (some c) ∧ c ≠ [] ∧ p.2 = contourArea c := by
  induction contours generalizing i0 with
  | nil => intro p hp; simp [buildRanked] at hp
  | cons oc rest ih =>
    intro p hp
    match oc with
    | none =>
      obtain ⟨k, c, h1, h2, h3, h4⟩ := ih (i0 + 1) p (by simpa [buildRanked] using hp)
      exact ⟨k + 1, c, by omega, by simpa using h2, h3, h4⟩
    | some c0 =>
      rw [buildRanked] at hp
      by_cases hlen : c0.length = 0
      · rw [if_pos hlen] at hp
        obtain ⟨k, c, h1, h2, h3, h4⟩ := ih (i0 + 1) p hp
        exact ⟨k + 1, c, by omega, by simpa using h2, h3, h4⟩
      · rw [if_neg hlen] at hp
        rcases List.mem_cons.mp hp with h | h
        · subst h
          exact ⟨0, c0, by omega, rfl, by simpa using hlen, rfl⟩
        · obtain ⟨k, c, h1, h2, h3, h4⟩ := ih (i0 + 1) p h
          exact ⟨k + 1, c, by omega, by simpa using h2, h3, h4⟩

theorem buildRanked_lb (contours : List (Option Contour)) (i0 : ℕ) :
    ∀ p ∈ buildRanked contours i0, i0 ≤ p.1 := by
  intro p hp
  obtain ⟨k, _, h1, _, _, _⟩ := mem_buildRanked contours i0 p hp
  omega

theorem buildRanked_pairwise (contours : List (Option Contour)) (i0 : ℕ) :
    (buildRanked contours i0).Pairwise (fun a b => a.1 < b.1) := by
  induction contours generalizing i0 with
  | nil => simp [buildRanked]
  | cons oc rest ih =>
    match oc with
    | none => simpa [buildRanked] using ih (i0 + 1)
    | some c0 =>
      rw [buildRanked]
      by_cases hlen : c0.length = 0
      · rw [if_pos hlen]; exact ih (i0 + 1)
      · rw [if_neg hlen]
        refine List.Pairwise.cons ?_ (ih (i0 + 1))
        intro p hp
        have := buildRanked_lb rest (i0 + 1) p hp
        omega

theorem mem_insertDesc (x : ℕ × ℚ) (l : List (ℕ × ℚ)) (y : ℕ × ℚ) :
    y ∈ insertDesc x l ↔ y = x ∨ y ∈ l := by
  induction l with
  | nil => simp [insertDesc]
  | cons z zs ih =>
    rw [insertDesc]
    by_cases h : z.2 ≤ x.2
    · rw [if_pos h]; simp
    · rw [if_neg h]
      simp only [List.mem_cons, ih]
      tauto

theorem mem_sortRankedDesc (l : List (ℕ × ℚ)) (y : ℕ × ℚ) :
    y ∈ sortRankedDesc l ↔ y ∈ l := by
  induction l with
  | nil => simp [sortRankedDesc]
  | cons z zs ih => rw [sortRankedDesc, mem_insertDesc]; simp [ih]

theorem insertDesc_pairwise (x : ℕ × ℚ) (l : List (ℕ × ℚ))
    (hl : l.Pairwise rankOrder) (hx : ∀ y ∈ l, x.1 < y.1) :
    (insertDesc x l).Pairwise rankOrder := by
  induction l with
  | nil => simp [insertDesc, rankOrder]
  | cons y ys ih =>
    rw [insertDesc]
    rcases List.pairwise_cons.mp hl with ⟨hy, hys⟩
    by_cases h : y.2 ≤ x.2
    · rw [if_pos h]
      refine List.Pairwise.cons ?_ hl
      intro z hz
      have hz2 : z.2 ≤ x.2 := by
        rcases List.mem_cons.mp hz with h' | h'
        · subst h'; exact h
        · rcases hy z h' with h'' | ⟨h'', _⟩
          · exact le_trans (le_of_lt h'') h
          · exact le_trans (le_of_eq h''.symm) h
      rcases lt_or_eq_of_le hz2 with h' | h'
      · exact Or.inl h'
      · exact Or.inr ⟨h'.symm, hx z hz⟩
    · rw [if_neg h]
      refine List.Pairwise.cons ?_ (ih hys (fun y' hy' => hx y' (List.mem_cons.mpr (Or.inr hy'))))
      intro z hz
      rcases (mem_insertDesc x ys z).mp hz with h' | h'
      · subst h'; exact Or.inl (lt_of_not_le h)
      · exact hy z h'

theorem sortRankedDesc_pairwise (l : List (ℕ × ℚ))
    (h : l.Pairwise (fun a b => a.1 < b.1)) :
    (sortRankedDesc l).Pairwise rankOrder := by
  induction l with
  | nil => simp [sortRankedDesc]
  | cons x xs ih =>
    rcases List.pairwise_cons.mp h with ⟨hx, hxs⟩
    rw [sortRankedDesc]
    exact insertDesc_pairwise x (sortRankedDesc xs) (ih hxs)
      (fun y hy => hx y ((mem_sortRankedDesc xs y).mp hy))

/-- The area the ranking of `get_largest` associates with index `i`. -/
def areaOfIdx (contours : List (Option Contour)) (i : ℕ) : ℚ :=
  match contours.get? i with
  | some (some c) => contourArea c
  | _ => 0

/-- C5: `get_largest` returns at most two indices, each a valid index of a
non-`None`, non-empty contour, ordered by non-increasing area with ties in
original detection order; the empty input yields the empty shortlist. -/
theorem get_largest_spec (contours : List (Option Contour)) :
    (get_largest contours).length ≤ 2
    ∧ (∀ i ∈ get_largest contours, ∃ c, contours.get? i = some (some c) ∧ c ≠ [])
    ∧ (get_largest contours).Pairwise (fun i j =>
        areaOfIdx contours j < areaOfIdx contours i
        ∨ (areaOfIdx contours i = areaOfIdx contours j ∧ i < j))
    ∧ get_largest ([] : List (Option Contour)) = [] := by
  have hmemBR : ∀ p ∈ sortRankedDesc (buildRanked contours 0), ∃ k c, p.1 = k
      ∧ contours.get? k = some (some c) ∧ c ≠ [] ∧ p.2 = contourArea c := by
    intro p hp
    obtain ⟨k, c, h1, h2, h3, h4⟩ := mem_buildRanked contours 0 p
      ((mem_sortRankedDesc _ p).mp hp)
    exact ⟨k, c, by omega, h2, h3, h4⟩
  refine ⟨?_, ?_, ?_, rfl⟩
  · rw [get_largest, List.length_map]
    exact List.length_take_le 2 _
  · intro i hi
    obtain ⟨p, hp, hpi⟩ := List.mem_map.mp hi
    have hp' : p ∈ sortRankedDesc (buildRanked contours 0) :=
      List.mem_of_mem_take hp
    obtain ⟨k, c, h1, h2, h3, _⟩ := hmemBR p hp'
    exact ⟨c, by rw [← hpi, h1]; exact h2, h3⟩
  · have hgood : ∀ p ∈ sortRankedDesc (buildRanked contours 0),
        p.2 = areaOfIdx contours p.1 := by
      intro p hp
      obtain ⟨k, c, h1, h2, h3, h4⟩ := hmemBR p hp
      rw [h4, areaOfIdx, h1, h2]
    have hpw : (sortRankedDesc (buildRanked contours 0)).Pairwise rankOrder :=
      sortRankedDesc_pairwise _ (buildRanked_pairwise contours 0)
    have hpw2 : ((sortRankedDesc (buildRanked contours 0)).take 2).Pairwise
        (fun a b => rankOrder a b ∧ a.2 = areaOfIdx contours a.1
          ∧ b.2 = areaOfIdx contours b.1) := by
      refine List.Pairwise.imp_of_mem ?_ (hpw.sublist (List.take_sublist 2 _))
      intro a b ha hb hr
      exact ⟨hr, hgood a (List.mem_of_mem_take ha), hgood b (List.mem_of_mem_take hb)⟩
    rw [get_largest, List.pairwise_map]
    refine hpw2.imp ?_
    intro a b ⟨hr, hga, hgb⟩
    rcases hr with h | ⟨h1, h2⟩
    · exact Or.inl (by rw [← hga, ← hgb]; exact h)
    · exact Or.inr ⟨by rw [← hga, ← hgb]; exact h1, h2⟩

/-! ## Closest-pair and merge lemmas -/

theorem mem_fcpPairs (c1 c2 : Contour) (p : Point × Point × ℕ) :
    p ∈ fcpPairs c1 c2 ↔ p.1 ∈ c1 ∧ c2.get? p.2.2 = some p.2.1 := by
  unfold fcpPairs
  rw [List.mem_flatMap]
  constructor
  · rintro ⟨a, ha, hp⟩
    rw [List.mem_map] at hp
    obtain ⟨⟨i, b⟩, hib, rfl⟩ := hp
    exact ⟨ha, (List.mk_mem_enum_iff_get?.mp hib)⟩
  · rintro ⟨h1, h2⟩
    refine ⟨p.1, h1, List.mem_map.mpr ⟨(p.2.2, p.2.1), List.mk_mem_enum_iff_get?.mpr h2, rfl⟩⟩

theorem fcp_fold_spec (L : List (Point × Point × ℕ)) (s : ℤ)
    (o : Option (Point × Point × ℕ)) :
    (L.foldl fcpStep (s, o)).1 ≤ s
    ∧ (∀ p ∈ L, (L.foldl fcpStep (s, o)).1 ≤ sqdist p.1 p.2.1)
    ∧ (((L.foldl fcpStep (s, o)).1 = s ∧ (L.foldl fcpStep (s, o)).2 = o)
        ∨ ∃ p ∈ L, (L.foldl fcpStep (s, o)).2 = some p
            ∧ (L.foldl fcpStep (s, o)).1 = sqdist p.1 p.2.1) := by
  induction L generalizing s o with
  | nil => exact ⟨le_refl _, by simp, Or.inl ⟨rfl, rfl⟩⟩
  | cons q t ih =>
    by_cases h : sqdist q.1 q.2.1 < s
    · have hstep : (q :: t).foldl fcpStep (s, o)
          = t.foldl fcpStep (sqdist q.1 q.2.1, some q) := by
        simp [List.foldl_cons, fcpStep, h]
      rcases ih (sqdist q.1 q.2.1) (some q) with ⟨ha, hb, hc⟩
      rw [hstep]
      refine ⟨le_of_lt (lt_of_le_of_lt ha h), ?_, ?_⟩
      · intro p hp
        rcases List.mem_cons.mp hp with h' | h'
        · subst h'; exact ha
        · exact hb p h'
      · rcases hc with ⟨h1, h2⟩ | ⟨p, hp, h1, h2⟩
        · exact Or.inr ⟨q, List.mem_cons_self _ _, h2, h1⟩
        · exact Or.inr ⟨p, List.mem_cons.mpr (Or.inr hp), h1, h2⟩
    · have hstep : (q :: t).foldl fcpStep (s, o) = t.foldl fcpStep (s, o) := by
        simp [List.foldl_cons, fcpStep, h]
      rcases ih s o with ⟨ha, hb, hc⟩
      rw [hstep]
      refine ⟨ha, ?_, ?_⟩
      · intro p hp
        rcases List.mem_cons.mp hp with h' | h'
        · subst h'; exact le_trans ha (le_of_not_lt h)
        · exact hb p h'
      · rcases hc with ⟨h1, h2⟩ | ⟨p, hp, h1, h2⟩
        · exact Or.inl ⟨h1, h2⟩
        · exact Or.inr ⟨p, List.mem_cons.mpr (Or.inr hp), h1, h2⟩

theorem findClosestPair_mem (c1 c2 : Contour) (p1 p2 : Point) (i : ℕ)
    (h : findClosestPair c1 c2 = some (p1, p2, i)) :
    p1 ∈ c1 ∧ c2.get? i = some p2 := by
  unfold findClosestPair at h
  rcases (fcp_fold_spec (fcpPairs c1 c2) mergeSentinelSq none).2.2 with ⟨_, h2⟩ | ⟨p, hp, h1, _⟩
  · rw [h2] at h; cases h
  · rw [h1] at h
    have h3 := Option.some.inj h
    subst h3
    exact (mem_fcpPairs c1 c2 _).mp hp

/-- C4 (amended): whenever some pair of points of the two non-empty
contours lies at squared distance below the sentinel
`999999999 ** 2`, the closest-pair search of `merge_contour` selects a
pair, that pair consists of a point of `c1` and an indexed point of `c2`,
and it attains the global minimum distance over all point pairs. -/
theorem findClosestPair_min (c1 c2 : Contour)
    (hlt : ∃ a ∈ c1, ∃ b ∈ c2, sqdist a b < mergeSentinelSq) :
    ∃ p1 p2 i, findClosestPair c1 c2 = some (p1, p2, i)
      ∧ p1 ∈ c1 ∧ c2.get? i = some p2
      ∧ ∀ a ∈ c1, ∀ b ∈ c2, sqdist p1 p2 ≤ sqdist a b := by
  obtain ⟨a, ha, b, hb, hab⟩ := hlt
  obtain ⟨ib, hib⟩ := List.get?_of_mem hb
  have hmem : (a, b, ib) ∈ fcpPairs c1 c2 :=
    (mem_fcpPairs c1 c2 (a, b, ib)).mpr ⟨ha, hib⟩
  rcases fcp_fold_spec (fcpPairs c1 c2) mergeSentinelSq none with ⟨_, hmin, hres⟩
  have hlow : (List.foldl fcpStep (mergeSentinelSq, none) (fcpPairs c1 c2)).1
      < mergeSentinelSq := lt_of_le_of_lt (hmin _ hmem) hab
  rcases hres with ⟨h1, _⟩ | ⟨p, hp, h1, h2⟩
  · rw [h1] at hlow; exact absurd hlow (lt_irrefl _)
  · refine ⟨p.1, p.2.1, p.2.2, ?_, ?_, ?_, ?_⟩
    · unfold findClosestPair; rw [h1]
    · exact ((mem_fcpPairs c1 c2 p).mp hp).1
    · exact ((mem_fcpPairs c1 c2 p).mp hp).2
    · intro x hx y hy
      obtain ⟨iy, hiy⟩ := List.get?_of_mem hy
      have hxy : (x, y, iy) ∈ fcpPairs c1 c2 :=
        (mem_fcpPairs c1 c2 (x, y, iy)).mpr ⟨hx, hiy⟩
      have := hmin _ hxy
      rw [h2] at this
      exact this

/-- Witness for C4's amended theorem at a concrete input: two unit squares
with nearest corners `(1,1)` and `(3,3)`. -/
theorem findClosestPair_min_witness :
    ∃ p1 p2 i, findClosestPair
        [((0 : ℤ), (0 : ℤ)), (1, 0), (1, 1), (0, 1)]
        [((3 : ℤ), (3 : ℤ)), (4, 3), (4, 4), (3, 4)] = some (p1, p2, i)
      ∧ p1 ∈ [((0 : ℤ), (0 : ℤ)), (1, 0), (1, 1), (0, 1)]
      ∧ [((3 : ℤ), (3 : ℤ)), (4, 3), (4, 4), (3, 4)].get? i = some p2
      ∧ ∀ a ∈ [((0 : ℤ), (0 : ℤ)), (1, 0), (1, 1), (0, 1)],
          ∀ b ∈ [((3 : ℤ), (3 : ℤ)), (4, 3), (4, 4), (3, 4)],
            sqdist p1 p2 ≤ sqdist a b :=
  findClosestPair_min _ _
    ⟨((1 : ℤ), (1 : ℤ)), by decide, ((3 : ℤ), (3 : ℤ)), by decide, by decide⟩

/-- Counterexample for C4 as stated: for the non-empty one-point contours
`[(10^9, 0)]` and `[(0, 0)]` every pair distance reaches the
`999999999` sentinel, so no splice pair is selected at all (the Python
source then evaluates `smallest_pair[0][0]` on the integer `-1` and
raises); in particular no selected pair attains the minimum. -/
theorem findClosestPair_sentinel_cex :
    findClosestPair [((1000000000 : ℤ), (0 : ℤ))] [((0 : ℤ), (0 : ℤ))] = none
    ∧ ¬ (sqdist ((1000000000 : ℤ), (0 : ℤ)) ((0 : ℤ), (0 : ℤ)) < mergeSentinelSq) := by
  constructor
  · decide
  · decide

theorem mergeWalk_nil (p1 : Point) (ringB : Contour) : mergeWalk [] p1 ringB = [] := rfl

theorem mergeWalk_cons (a : Point) (l : Contour) (p1 : Point) (ringB : Contour) :
    mergeWalk (a :: l) p1 ringB
      = (if a = p1 then a :: ringB else [a]) ++ mergeWalk l p1 ringB := rfl

theorem mergeWalk_not_mem (l : Contour) (p1 : Point) (ringB : Contour)
    (h : p1 ∉ l) : mergeWalk l p1 ringB = l := by
  induction l with
  | nil => rfl
  | cons a t ih =>
    have ha : a ≠ p1 := fun he => h (by rw [← he]; exact List.mem_cons_self a t)
    rw [mergeWalk_cons, if_neg ha, ih (fun ht => h (List.mem_cons.mpr (Or.inr ht)))]
    rfl

theorem mergeWalk_split (l1 l2 : Contour) (p1 : Point) (ringB : Contour)
    (h1 : p1 ∉ l1) (h2 : p1 ∉ l2) :
    mergeWalk (l1 ++ p1 :: l2) p1 ringB = l1 ++ p1 :: (ringB ++ l2) := by
  induction l1 with
  | nil =>
    rw [List.nil_append, mergeWalk_cons, if_pos rfl,
      mergeWalk_not_mem l2 p1 ringB h2, List.nil_append]
    simp
  | cons a t ih =>
    have ha : a ≠ p1 := fun he => h1 (he ▸ List.mem_cons_self a t)
    have ht : p1 ∉ t := fun hm => h1 (List.mem_cons.mpr (Or.inr hm))
    rw [List.cons_append, mergeWalk_cons, if_neg ha, ih ht, List.cons_append]
    rfl

/-- C3 (amended): for a 2-element shortlist `[b0, b1]` selecting contours
`c1` and `c2`, when the closest-pair search selects `(p1, p2, i)` and the
splice point `p1` occurs exactly once in `c1` (written `c1 = l1 ++ p1 ::
l2` with `p1` in neither part), `merge_contour` returns `c1` with the
entire ring of `c2` — starting at the nearest point `p2 = c2[i]` and
continuing circularly through all of `c2` — inserted immediately after
`p1`, so the result length is `|c1| + |c2|`. -/
theorem merge_contour_splice (contours : List Contour) (b0 b1 : ℕ)
    (c1 c2 : Contour) (p1 p2 : Point) (i : ℕ) (l1 l2 : Contour)
    (hc1 : contours.getD b0 [] = c1)
    (hc2 : contours.getD b1 [] = c2)
    (hf : findClosestPair c1 c2 = some (p1, p2, i))
    (hsplit : c1 = l1 ++ p1 :: l2)
    (hl1 : p1 ∉ l1) (hl2 : p1 ∉ l2) :
    merge_contour [b0, b1] contours
      = some (l1 ++ p1 :: ((c2.drop i ++ c2.take i) ++ l2))
    ∧ (l1 ++ p1 :: ((c2.drop i ++ c2.take i) ++ l2)).length
        = c1.length + c2.length
    ∧ c2.get? i = some p2 := by
  have hget := (findClosestPair_mem c1 c2 p1 p2 i hf).2
  have hi : i < c2.length := by
    rcases List.get?_eq_some.mp hget with ⟨h, _⟩
    exact h
  refine ⟨?_, ?_, hget⟩
  · rw [merge_contour, if_pos (by rfl : ([b0, b1] : List ℕ).length = 2)]
    have e0 : ([b0, b1] : List ℕ).getD 0 0 = b0 := rfl
    have e1 : ([b0, b1] : List ℕ).getD 1 0 = b1 := rfl
    rw [e0, e1, hc1, hc2]
    simp only [hf]
    show some (mergeWalk c1 p1 (c2.drop i ++ c2.take i)) = _
    rw [hsplit, mergeWalk_split l1 l2 p1 _ hl1 hl2]
  · have hlen : c1.length = l1.length + 1 + l2.length := by
      rw [hsplit]; simp [List.length_append]; omega
    simp only [List.length_append, List.length_cons, List.length_drop,
      List.length_take]
    omega

/-- Witness for C3's amended theorem: two squares with nearest corners
`(1,1)` and `(3,3)`; the full ring of the second square is inserted after
`(1,1)` and the merged length is `4 + 4`. -/
theorem merge_contour_splice_witness :
    merge_contour [0, 1]
        [[((0 : ℤ), (0 : ℤ)), (1, 0), (1, 1), (0, 1)],
          [((3 : ℤ), (3 : ℤ)), (4, 3), (4, 4), (3, 4)]]
      = some [((0 : ℤ), (0 : ℤ)), (1, 0), (1, 1), (3, 3), (4, 3), (4, 4), (3, 4), (0, 1)]
    ∧ ([((0 : ℤ), (0 : ℤ)), (1, 0), (1, 1), (3, 3), (4, 3), (4, 4), (3, 4), (0, 1)] : Contour).length
        = ([((0 : ℤ), (0 : ℤ)), (1, 0), (1, 1), (0, 1)] : Contour).length
          + ([((3 : ℤ), (3 : ℤ)), (4, 3), (4, 4), (3, 4)] : Contour).length
    ∧ ([((3 : ℤ), (3 : ℤ)), (4, 3), (4, 4), (3, 4)] : Contour).get? 0 = some (3, 3) :=
  merge_contour_splice
    [[((0 : ℤ), (0 : ℤ)), (1, 0), (1, 1), (0, 1)],
      [((3 : ℤ), (3 : ℤ)), (4, 3), (4, 4), (3, 4)]] 0 1
    [((0 : ℤ), (0 : ℤ)), (1, 0), (1, 1), (0, 1)]
    [((3 : ℤ), (3 : ℤ)), (4, 3), (4, 4), (3, 4)]
    ((1 : ℤ), (1 : ℤ)) ((3 : ℤ), (3 : ℤ)) 0
    [((0 : ℤ), (0 : ℤ)), (1, 0)] [((0 : ℤ), (1 : ℤ))]
    (by decide) (by decide) (by decide) (by decide) (by decide) (by decide)

/-- Counterexample for C3 as stated: the shortlisted pair
`A = [(0,0), (0,0)]` (a duplicated point), `B = [(5,5)]` makes the merge
walk insert the ring of `B` after **every** occurrence of the splice point
value, so the result has length 4, not `|A| + |B| = 3`. -/
theorem merge_contour_dup_cex :
    get_largest [some [((0 : ℤ), (0 : ℤ)), ((0 : ℤ), (0 : ℤ))], some [((5 : ℤ), (5 : ℤ))]]
      = [0, 1]
    ∧ (merge_contour [0, 1]
        [[((0 : ℤ), (0 : ℤ)), ((0 : ℤ), (0 : ℤ))], [((5 : ℤ), (5 : ℤ))]]).map List.length
      = some 4
    ∧ (4 : ℕ) ≠ 2 + 1 := by
  refine ⟨?_, by decide, by decide⟩
  norm_num [get_largest, buildRanked, sortRankedDesc, insertDesc, contourArea,
    shoelaceDoubled, shoelaceAux]

/-! ## `find_contours` channel-skip and legacy-dot theorems -/

/-- Trivial primitive interpretation over `Unit`, used by concrete
channel-skip examples. -/
def unitPrims : CVPrims Unit Unit where
  thresholdOtsuInv := fun _ => ()
  thresholdAdaptOtsu := fun _ => ()
  thresholdOtsuBias := fun _ _ => ((), 0, 0)
  canny := fun _ _ _ => ()
  morphCloseOnes := fun _ => ()
  morphCloseCross := fun _ => ()
  findContoursL := fun _ => []
  findContoursExt := fun _ => []
  maskMax := fun _ => 0

/-- C6 (amended): in the `cytocv` variant of `find_contours`, any channel
whose source derivatives are absent is skipped entirely: its contour
lists and shortlists come back empty, no primitive is invoked for it, and
(the model being total) no exception is raised.  For example a
`GrayImageSet` built from only a GFP array yields empty mCherry and DAPI
bundles.  (The `yeastweb` variant instead raises; see the
counterexample.) -/
theorem find_contours_missing_channels {Image Mask : Type} (P : CVPrims Image Mask)
    (images : String → Option Image) :
    (images "gray_mcherry_3" = none → (find_contours P images).dot_contours = [])
    ∧ ((images "gray_mcherry_3" = none ∨ images "gray_mcherry" = none) →
        (find_contours P images).contours = []
        ∧ (find_contours P images).contours_mcherry = []
        ∧ (find_contours P images).bestContours = []
        ∧ (find_contours P images).bestContours_mcherry = [])
    ∧ ((images "gray_dapi_3" = none ∨ images "gray_dapi" = none) →
        (find_contours P images).contours_dapi = []
        ∧ (find_contours P images).contours_dapi_3 = []
        ∧ (find_contours P images).bestContours_dapi = []
        ∧ (find_contours P images).bestContours_dapi_3 = [])
    ∧ (images "GFP" = none → (find_contours P images).contours_gfp = []) := by
  refine ⟨?_, ?_, ?_, ?_⟩
  · intro h
    simp [find_contours, h]
  · rintro (h | h)
    · simp [find_contours, h]
    · cases h3 : images "gray_mcherry_3" <;> simp [find_contours, h, h3]
  · rintro (h | h)
    · simp [find_contours, h]
    · cases h3 : images "gray_dapi_3" <;> simp [find_contours, h, h3]
  · intro h
    simp [find_contours, h]

/-- Witness for C6 at a concrete input: the GFP-only image set with the
trivial primitive interpretation yields empty mCherry and DAPI bundles. -/
theorem find_contours_missing_channels_witness :
    ((fun s => if s = "GFP" then some () else none) "gray_mcherry_3" = (none : Option Unit))
    ∧ (find_contours unitPrims
        (fun s => if s = "GFP" then some () else none)).dot_contours = []
    ∧ (find_contours unitPrims
        (fun s => if s = "GFP" then some () else none)).bestContours_mcherry = []
    ∧ (find_contours unitPrims
        (fun s => if s = "GFP" then some () else none)).contours_dapi = [] := by
  have h := find_contours_missing_channels unitPrims
    (fun s => if s = "GFP" then some () else none)
  have hm : (fun s => if s = "GFP" then some () else none) "gray_mcherry_3"
      = (none : Option Unit) := by simp
  have hd : (fun s => if s = "GFP" then some () else none) "gray_dapi"
      = (none : Option Unit) := by simp
  exact ⟨hm, h.1 hm, (h.2.1 (Or.inl hm)).2.2.2, (h.2.2.1 (Or.inr hd)).1⟩

/-- Counterexample for C6 as stated: the `yeastweb` variant of
`find_contours` reads all five channel derivatives unconditionally, so on
a GFP-only image set it passes `None` into `cv2` and raises (modelled by
`none`) instead of skipping the absent channels. -/
theorem find_contours_yw_missing_channel_cex :
    find_contours_yw unitPrims (fun s => if s = "GFP" then some () else none)
      "current" 0 = none := by
  have e : (fun s : String => if s = "GFP" then some () else none) "gray_mcherry_3"
      = (none : Option Unit) := by simp
  unfold find_contours_yw
  rw [e]

/-- C9 (amended): with `mcherry_dot_method = "legacy"` and a non-empty
mCherry shortlist, the `yeastweb` `find_contours` returns as
`dot_contours` the largest-two (by `get_largest`) contours extracted from
the Otsu binarization of the **fine** `gray_mcherry_3` derivative (the
3×3-blurred one) — not of the coarse `gray_mcherry` derivative. -/
theorem find_contours_yw_legacy_dots {Image Mask : Type} (P : CVPrims Image Mask)
    (images : String → Option Image) (bias : ℚ) (gm3 gm gd3 gd gfp : Image)
    (h1 : images "gray_mcherry_3" = some gm3)
    (h2 : images "gray_mcherry" = some gm)
    (h3 : images "gray_dapi_3" = some gd3)
    (h4 : images "gray_dapi" = some gd)
    (h5 : images "GFP" = some gfp)
    (hne : get_largest ((P.findContoursL (P.thresholdAdaptOtsu gm3)).map some) ≠ []) :
    ∃ b, find_contours_yw P images "legacy" bias = some b
      ∧ b.contours_mcherry = P.findContoursL (P.thresholdAdaptOtsu gm3)
      ∧ b.bestContours_mcherry
          = get_largest ((P.findContoursL (P.thresholdAdaptOtsu gm3)).map some)
      ∧ b.dot_contours
          = ((get_largest ((P.findContoursL (P.thresholdAdaptOtsu gm3)).map some)).filter
              (fun i => i < (P.findContoursL (P.thresholdAdaptOtsu gm3)).length)).map
            (fun i => (P.findContoursL (P.thresholdAdaptOtsu gm3)).getD i []) := by
  have hleg : normalize_mcherry_dot_method "legacy" = "legacy" := by decide
  unfold find_contours_yw
  rw [h1, h2, h3, h4, h5]
  refine ⟨_, rfl, ?_, ?_, ?_⟩ <;> simp [hleg, hne]

/-- Primitive interpretation for the C9 counterexample: mask 1 (the fine
binarization) holds one triangle, every other mask a different one. -/
def cexPrims : CVPrims ℕ ℕ where
  thresholdOtsuInv := fun i => i
  thresholdAdaptOtsu := fun i => i
  thresholdOtsuBias := fun i _ => (i, 0, 0)
  canny := fun i _ _ => i
  morphCloseOnes := fun m => m
  morphCloseCross := fun m => m
  findContoursL := fun m =>
    if m = 1 then [[((0 : ℤ), (0 : ℤ)), (1, 0), (1, 1)]]
    else [[((5 : ℤ), (5 : ℤ)), (9, 5), (9, 9)]]
  findContoursExt := fun _ => []
  maskMax := fun _ => 1

/-- Image set for the C9 counterexample: the fine `gray_mcherry_3`
derivative is image 1, every other derivative is image 2. -/
def cexImages : String → Option ℕ :=
  fun s => if s = "gray_mcherry_3" then some 1 else some 2

/-- Counterexample for C9 as stated: under the legacy method the returned
`dot_contours` come from the binarization of the fine `gray_mcherry_3`
derivative (image 1, giving the first triangle), while the claim's coarse
`gray_mcherry` binarization (image 2) would give the other triangle. -/
theorem find_contours_yw_legacy_dots_cex :
    (find_contours_yw cexPrims cexImages "legacy" 0).map (fun b => b.dot_contours)
      = some [[((0 : ℤ), (0 : ℤ)), (1, 0), (1, 1)]]
    ∧ (get_largest ((cexPrims.findContoursL (cexPrims.thresholdAdaptOtsu 2)).map some)).map
        (fun i => (cexPrims.findContoursL (cexPrims.thresholdAdaptOtsu 2)).getD i [])
      = [[((5 : ℤ), (5 : ℤ)), (9, 5), (9, 9)]]
    ∧ ([[((0 : ℤ), (0 : ℤ)), (1, 0), (1, 1)]] : List Contour)
      ≠ [[((5 : ℤ), (5 : ℤ)), (9, 5), (9, 9)]] := by
  have hleg : normalize_mcherry_dot_method "legacy" = "legacy" := by decide
  have e1 : cexImages "gray_mcherry_3" = some 1 := by simp [cexImages]
  have e2 : cexImages "gray_mcherry" = some 2 := by simp [cexImages]
  have e3 : cexImages "gray_dapi_3" = some 2 := by simp [cexImages]
  have e4 : cexImages "gray_dapi" = some 2 := by simp [cexImages]
  have e5 : cexImages "GFP" = some 2 := by simp [cexImages]
  refine ⟨?_, ?_, by decide⟩
  · unfold find_contours_yw
    rw [e1, e2, e3, e4, e5]
    norm_num [hleg, cexPrims, get_largest, buildRanked,
      sortRankedDesc, insertDesc, contourArea, shoelaceDoubled, shoelaceAux,
      extract_dot_contours]
  · norm_num [cexPrims, get_largest, buildRanked, sortRankedDesc, insertDesc,
      contourArea, shoelaceDoubled, shoelaceAux]

/-- Witness for C9's amended theorem at the counterexample interpretation:
all five channel derivatives present, non-empty fine shortlist. -/
theorem find_contours_yw_legacy_dots_witness :
    ∃ b, find_contours_yw cexPrims cexImages "legacy" 0 = some b
      ∧ b.contours_mcherry = cexPrims.findContoursL (cexPrims.thresholdAdaptOtsu 1)
      ∧ b.bestContours_mcherry
          = get_largest ((cexPrims.findContoursL (cexPrims.thresholdAdaptOtsu 1)).map some)
      ∧ b.dot_contours
          = ((get_largest ((cexPrims.findContoursL (cexPrims.thresholdAdaptOtsu 1)).map some)).filter
              (fun i => i < (cexPrims.findContoursL (cexPrims.thresholdAdaptOtsu 1)).length)).map
            (fun i => (cexPrims.findContoursL (cexPrims.thresholdAdaptOtsu 1)).getD i []) :=
  find_contours_yw_legacy_dots cexPrims cexImages 0 1 2 2 2 2
    (by simp [cexImages]) (by simp [cexImages]) (by simp [cexImages])
    (by simp [cexImages]) (by simp [cexImages])
    (by norm_num [cexPrims, get_largest, buildRanked, sortRankedDesc, insertDesc,
      contourArea, shoelaceDoubled, shoelaceAux])

end CytoCV
